import Mathlib

/-!
# Verification of the AC•THOR device-client core

Shallow embedding of the core of `custom_components/acthor` (register
descriptor layer `acthor/abc.py`, register map and descriptor mixins
`acthor/registers.py`, event notification `acthor/event_target.py`, and the
device controller `acthor/client.py`), together with proofs settling the
specification claims about it.

Python numbers are modelled as `ℚ` (the float literals appearing in the
source — 1.8, 1.25, 1.5, 10 — are treated as exact rationals) and machine
integers as `ℤ`/`ℕ`.  Python exceptions are modelled with `Except`.
-/

namespace Acthor

/-- Python's `int(x)` applied to a number: truncation toward zero. -/
def pyInt (q : ℚ) : ℤ :=
  if 0 ≤ q then ⌊q⌋ else ⌈q⌉

/-- Python's `round(x)` applied to a number: nearest integer, ties to even
(banker's rounding). -/
def pyRound (q : ℚ) : ℤ :=
  let f : ℤ := ⌊q⌋
  let r : ℚ := q - f
  if r < 1/2 then f
  else if 1/2 < r then f + 1
  else if Even f then f else f + 1

/-- The Python exception classes raised by the embedded code. -/
inductive PyError where
  | valueError (msg : String)
  | transportError (msg : String)
  deriving DecidableEq, Repr

instance : DecidableEq (Except PyError Unit) := fun a b =>
  match a, b with
  | .ok (), .ok () => isTrue rfl
  | .ok (), .error _ => isFalse (fun h => Except.noConfusion h)
  | .error _, .ok () => isFalse (fun h => Except.noConfusion h)
  | .error e, .error f =>
    if h : e = f then isTrue (congrArg Except.error h)
    else isFalse (fun hh => h (by injection hh))

/-! ## Register descriptor layer (`acthor/abc.py`)

A register descriptor holds an address, an optional scale factor and (for
multi-register spans) a length.  The wire side of `ABCModbusProtocol` is
modelled as an event log: each transport-level call appends one event, so
counting transport operations is counting log entries. -/

/-- One transport-level operation issued to the Modbus protocol object. -/
inductive WireEvent where
  | readRegisters (address count : ℕ)
  | writeRegister (address : ℕ) (value : ℤ)
  | writeRegisters (address : ℕ) (values : List ℚ)
  deriving DecidableEq, Repr

/-- `SingleRegister`: descriptor of one 16-bit register with an optional
scale factor (`abc.py`, lines 35-57). -/
structure SingleRegister where
  addr : ℕ
  factor : Option ℚ
  deriving DecidableEq, Repr

/-- `SingleRegister.__init__`: raises `ValueError` when the factor compares
equal to 0.  Python's `factor == 0` is `False` for `factor = None`, so only a
present zero factor is rejected. -/
def SingleRegister.init (addr : ℕ) (factor : Option ℚ) : Except PyError SingleRegister :=
  if factor = some 0 then
    .error (.valueError "factor must not be 0")
  else
    .ok ⟨addr, factor⟩

/-- The value stored by `SingleRegister.write`: `value *= factor` when a
factor is present, then `int(value)` (`abc.py`, lines 53-57). -/
def SingleRegister.encode (r : SingleRegister) (value : ℚ) : ℤ :=
  match r.factor with
  | some f => pyInt (value * f)
  | none => pyInt value

/-- `SingleRegister.write`: encodes the value and issues exactly one
`write_register` transport call. -/
def SingleRegister.write (r : SingleRegister) (value : ℚ) : List WireEvent :=
  [.writeRegister r.addr (r.encode value)]

/-- The value produced by `SingleRegister.read` from a raw register value:
`value /= factor` when a factor is present (`abc.py`, lines 46-51). -/
def SingleRegister.decode (r : SingleRegister) (raw : ℤ) : ℚ :=
  match r.factor with
  | some f => (raw : ℚ) / f
  | none => (raw : ℚ)

/-- `MultiRegister`: descriptor of `length` consecutive registers with an
optional scale factor (`abc.py`, lines 60-91). -/
structure MultiRegister where
  addr : ℕ
  length : ℕ
  factor : Option ℚ
  deriving DecidableEq, Repr

/-- `MultiRegister.__init__`: stores the fields unchecked — unlike
`SingleRegister.__init__` it performs no `factor == 0` test and never
raises (`abc.py`, lines 63-66). -/
def MultiRegister.init (addr length : ℕ) (factor : Option ℚ) : MultiRegister :=
  ⟨addr, length, factor⟩

/-- Element-wise encoding used by `MultiRegister.write`: with a factor each
element becomes `int(fac * val)`; without one the values pass through
unchanged (`abc.py`, lines 79-83). -/
def MultiRegister.encode (r : MultiRegister) (values : List ℚ) : List ℚ :=
  match r.factor with
  | some fac => values.map (fun val => (pyInt (fac * val) : ℚ))
  | none => values

/-- `MultiRegister.write`: encodes element-wise, raises `ValueError` when the
encoded sequence length differs from the descriptor length, otherwise issues
exactly one `write_registers` transport call (`abc.py`, lines 76-90). -/
def MultiRegister.write (r : MultiRegister) (values : List ℚ) :
    Except PyError (List WireEvent) :=
  let encoded := r.encode values
  if encoded.length ≠ r.length then
    .error (.valueError "can only write matching length")
  else
    .ok [.writeRegisters r.addr encoded]

/-! ## Register map entries used by the controller (`acthor/registers.py`)

The concrete descriptors from `ACThorRegistersMixin` that the controller
writes through. -/

namespace ACThorRegistersMixin

/-- `power = ReadWrite(1000)` (`registers.py`, line 92). -/
def power : SingleRegister := ⟨1000, none⟩

/-- `power_timeout = ReadWrite(1004)` (`registers.py`, line 143). -/
def power_timeout : SingleRegister := ⟨1004, none⟩

/-- `boost_activate = ReadWrite(1012)` (`registers.py`, line 166). -/
def boost_activate : SingleRegister := ⟨1012, none⟩

/-- `load_nominal_power = ReadOnly(1060)` (`registers.py`, line 245). -/
def load_nominal_power : SingleRegister := ⟨1060, none⟩

end ACThorRegistersMixin

/-! ## Fire-and-forget property writes (`acthor/registers.py`, lines 28-42)

`ReadWriteMixin.__set__` spawns `_write_handle_error` as a background task and
returns immediately; the task catches every exception from the underlying
register write and logs it.  A register write is therefore modelled by the
outcome of the underlying transport write plus the pair (what the assignment
returns to its caller, what the task logs). -/

namespace ReadWriteMixin

/-- `ReadWriteMixin._write_handle_error`: awaits the wrapped write and catches
any `Exception`, turning it into a log entry; the task itself always finishes
normally (`registers.py`, lines 34-38). -/
def write_handle_error (writeResult : Except PyError Unit) :
    Except PyError Unit × List String :=
  match writeResult with
  | .ok () => (.ok (), [])
  | .error _ => (.ok (), ["failed to write"])

/-- `ReadWriteMixin.__set__`: schedules `_write_handle_error` with
`asyncio.create_task` and returns `None` at once, so the assignment statement
itself never raises; the first component is what the assigning caller sees,
the second what the background task logs (`registers.py`, lines 31-32). -/
def propertySet (writeResult : Except PyError Unit) :
    Except PyError Unit × List String :=
  (.ok (), (write_handle_error writeResult).2)

end ReadWriteMixin

/-! ## Event notification (`acthor/event_target.py`) -/

/-- A listener is modelled by the outcome of invoking it on the event
argument: either it returns normally or it raises. -/
def Listener : Type := ℤ → Except PyError Unit

/-- `EventTarget.__dispatch_event_listener`: invokes one listener inside
`try/except Exception`, logging via `on_listener_exception`; the wrapping
coroutine itself always finishes normally (`event_target.py`, lines 57-72). -/
def dispatch_event_listener (listener : Listener) (arg : ℤ) :
    Except PyError Unit × List String :=
  match listener arg with
  | .ok () => (.ok (), [])
  | .error _ => (.ok (), ["listener raised error while handling event"])

/-- `asyncio.gather` over already-finished coroutine results: every coroutine
has run; the gather raises the first exception if any, else returns. -/
def gatherResult (results : List (Except PyError Unit)) : Except PyError Unit :=
  match results.filter (fun r => !r.toBool) with
  | [] => .ok ()
  | e :: _ => e

/-- `EventTarget.__dispatch_event`: wraps every currently-registered listener
in `__dispatch_event_listener` and gathers them, so each listener runs exactly
once (`event_target.py`, lines 74-86).  Returns the per-listener (outcome,
logs) pairs in registration order. -/
def dispatch_event (listeners : List Listener) (arg : ℤ) :
    List (Except PyError Unit × List String) :=
  listeners.map (fun l => dispatch_event_listener l arg)

/-- What `dispatch_event`'s task raises to anyone awaiting it: the gather of
the wrapped listener outcomes. -/
def dispatch_event_taskResult (listeners : List Listener) (arg : ℤ) :
    Except PyError Unit :=
  gatherResult ((dispatch_event listeners arg).map Prod.fst)

/-! ## Device controller (`acthor/client.py`) -/

/-- `OverrideMode` (`client.py`, lines 200-203). -/
inductive OverrideMode where
  | override
  | replace
  | minimum
  deriving DecidableEq, Repr

/-- The argument accepted where Python takes `Union[OverrideMode, str]`. -/
inductive ModeArg where
  | member (m : OverrideMode)
  | str (s : String)
  deriving DecidableEq, Repr

/-- Python enum call `OverrideMode(mode)`: a member passes through, a string
is looked up among the members' values, anything else raises `ValueError`. -/
def OverrideMode.ofValue : ModeArg → Except PyError OverrideMode
  | .member m => .ok m
  | .str s =>
    if s = "override" then .ok .override
    else if s = "replace" then .ok .replace
    else if s = "minimum" then .ok .minimum
    else .error (.valueError "not a valid OverrideMode")

/-- The mutable control state of `ACThor` used by the setpoint path
(`client.py`, lines 217-219). -/
structure ACThor where
  power_excess : ℤ
  power_override : ℤ
  override_mode : OverrideMode
  deriving DecidableEq, Repr

/-- Python's `a or b` on integers: `a` when it is truthy (nonzero), else
`b`. -/
def pyOrInt (a b : ℤ) : ℤ :=
  if a = 0 then b else a

/-- `ACThor.power_target` (`client.py`, lines 274-285): `REPLACE` returns the
override, `MINIMUM` the max of override and excess, and the default
(`OVERRIDE`) is Python's `self._power_override or self._power_excess`.  The
property getter only reads `self` and assigns nothing, so it is a pure
function of the control state. -/
def ACThor.power_target (s : ACThor) : ℤ :=
  match s.override_mode with
  | .replace => s.power_override
  | .minimum => max s.power_override s.power_excess
  | .override => pyOrInt s.power_override s.power_excess

/-- An event dispatched by the controller: name and positional arguments. -/
structure Event where
  name : String
  args : List ℤ
  deriving DecidableEq, Repr

/-- The observable outcome of one controller method call: the state after the
call, the transport operations attempted (in order), the events dispatched,
the log entries produced by fire-and-forget tasks, and what the call raises
to its caller. -/
structure CallResult where
  state : ACThor
  wire : List WireEvent
  events : List Event
  logs : List String
  result : Except PyError Unit
  deriving DecidableEq, Repr

/-- `ACThor.__power_write` (`client.py`, lines 291-293): assigns
`int(1.8 * power)` to the `power` register property — a fire-and-forget
`SingleRegister.write` of that value to register 1000.  Returns the attempted
transport operations and the background task's logs, given the outcome of the
underlying transport write. -/
def ACThor.power_write (power : ℤ) (writeResult : Except PyError Unit) :
    List WireEvent × List String :=
  (ACThorRegistersMixin.power.write ((pyInt ((9/5 : ℚ) * (power : ℚ)) : ℤ) : ℚ),
   (ReadWriteMixin.propertySet writeResult).2)

/-- `ACThor._force_update_power` (`client.py`, lines 342-345): reads
`power_target`, performs `__power_write` with it, and dispatches
`after_write_power` carrying that (unscaled) target. -/
def ACThor.force_update_power (s : ACThor) (writeResult : Except PyError Unit) :
    List WireEvent × List Event × List String :=
  let power := s.power_target
  let (wire, logs) := ACThor.power_write power writeResult
  (wire, [⟨"after_write_power", [power]⟩], logs)

/-- `ACThor.set_power_excess` (`client.py`, lines 347-360): stores the watts
as `power_excess`, then `_force_update_power`.  The assignment to the power
register is fire-and-forget, so the call returns normally to its caller even
when the transport write fails. -/
def ACThor.set_power_excess (watts : ℤ) (s : ACThor)
    (writeResult : Except PyError Unit) : CallResult :=
  let s2 := { s with power_excess := watts }
  let (wire, events, logs) := s2.force_update_power writeResult
  ⟨s2, wire, events, logs, .ok ()⟩

/-- The watts argument of `set_power_override`: `Union[bool, int]`. -/
inductive PowerArg where
  | bool (b : Bool)
  | int (n : ℤ)
  deriving DecidableEq, Repr

/-- `ACThor.set_power_override` (`client.py`, lines 362-387), given the device
register contents `dev` (read when `watts is True`) and the outcome of the
underlying power-register transport write.  The statements run in source
order: resolve the boolean shorthand (reading `load_nominal_power` for
`True`), then `OverrideMode(mode)` — whose `ValueError` aborts the call with
the state unmodified and no write attempted — then store `power_override` and
`_force_update_power`. -/
def ACThor.set_power_override (watts : PowerArg) (mode : Option ModeArg)
    (dev : ℕ → ℤ) (s : ACThor) (writeResult : Except PyError Unit) : CallResult :=
  let resolved : ℤ × List WireEvent :=
    match watts with
    | .bool true =>
      let nominal_power := dev ACThorRegistersMixin.load_nominal_power.addr
      (if nominal_power = 0 then 1000 else pyInt ((5/4 : ℚ) * (nominal_power : ℚ)),
       [.readRegisters ACThorRegistersMixin.load_nominal_power.addr 1])
    | .bool false => (0, [])
    | .int n => (n, [])
  let newMode : Except PyError OverrideMode :=
    match mode with
    | none => .ok s.override_mode
    | some m => OverrideMode.ofValue m
  match newMode with
  | .error e => ⟨s, resolved.2, [], [], .error e⟩
  | .ok m =>
    let s2 := { s with override_mode := m, power_override := resolved.1 }
    let (wire, events, logs) := s2.force_update_power writeResult
    ⟨s2, resolved.2 ++ wire, events, logs, .ok ()⟩

/-- `ACThor._on_connected` (`client.py`, lines 304-306): assigns
`1.5 * self.__update_interval` to the `power_timeout` register property —
a fire-and-forget `SingleRegister.write` of that value to register 1004,
which stores `int(1.5 * update_interval)`. -/
def ACThor.on_connected (update_interval : ℚ) : List WireEvent :=
  ACThorRegistersMixin.power_timeout.write ((3/2 : ℚ) * update_interval)

/-- The default loop interval: `loop_interval: float = 5`
(`client.py`, line 208). -/
def defaultLoopInterval : ℚ := 5

/-- The first action of `ACThor.__update_loop` (`client.py`, lines 323-326):
before entering the polling loop it awaits `_on_connected()`, so first entry
to the running state performs exactly the `_on_connected` write. -/
def ACThor.update_loop_init (update_interval : ℚ) : List WireEvent :=
  ACThor.on_connected update_interval

/-- `ACThor.__init__` registers `_on_connected` as the listener of the
`"connected"` event (`client.py`, line 211), so each reconnection dispatch
performs exactly the `_on_connected` write. -/
def ACThor.connected_listener_wire (update_interval : ℚ) : List WireEvent :=
  ACThor.on_connected update_interval

/-- `ACThor.__write_update` (`client.py`, lines 320-321): the fast-cycle
write — `__power_write(self.power_target)`. -/
def ACThor.write_update (s : ACThor) (writeResult : Except PyError Unit) :
    List WireEvent × List String :=
  ACThor.power_write s.power_target writeResult

/-- The `try/except` of one `__update_loop` iteration (`client.py`, lines
330-338): `CancelledError` re-raises, every other exception is logged and the
loop continues; on success `after_update` is dispatched.  Returns the logs
and what escapes the iteration. -/
def ACThor.update_loop_body (cycleResult : Except PyError Unit) :
    List String × List Event × Except PyError Unit :=
  match cycleResult with
  | .ok () => ([], [⟨"after_update", []⟩], .ok ())
  | .error _ => (["error while updating"], [], .ok ())

/-! ## Definitions following the specification's words

These do not embed source code; they state the formulas the spec claims, for
comparison against the definitions above. -/

/-- The spec's write-path encoding for a single scaled register:
`round(value * factor)` if the factor is present, else `int(value)`
(spec §4.1). -/
def specEncodeSingle (value : ℚ) (factor : Option ℚ) : ℤ :=
  match factor with
  | some f => pyRound (value * f)
  | none => pyInt value

/-- The spec's default slow-cycle interval: `max(60, fast_interval)`
(spec §4.5). -/
def specSlowIntervalDefault (fast : ℚ) : ℚ :=
  max 60 fast

/-- The spec's power-timeout register value:
`max(round(1.5 × slow_interval), 10)` seconds (spec §4.5). -/
def specClaimedPowerTimeout (slow : ℚ) : ℤ :=
  max (pyRound ((3/2 : ℚ) * slow)) 10

/-! ## Transport serialization gate (`acthor/client.py`, lines 60-120)

Every transport method of `ACThorRegisters` — `read_registers`,
`write_register`, `write_registers` — has the same shape: `async with
self._lock:` around the single wire operation (`client.py`, lines 100-120),
with one `asyncio.Lock` shared by all of them (line 71).  A register
operation is therefore a task running acquire → wire → release; the phases
below are that program's counter.  The lock follows `asyncio.Lock` semantics:
`acquire` succeeds immediately only when the lock is free and no task is
queued, otherwise the task is appended to the FIFO waiter queue; `release`
hands the lock to the head of the queue.  The ghost fields `arrived` and
`granted` record the order in which tasks requested and received the lock. -/

/-- Program counter of one register-operation task. -/
inductive TaskPhase where
  | notStarted
  | waiting
  | holding
  | onWire
  | wireDone
  | finished
  deriving DecidableEq, Repr

/-- State of `n` register-operation tasks sharing the transport's lock. -/
structure GateState (n : ℕ) where
  phase : Fin n → TaskPhase
  holder : Option (Fin n)
  queue : List (Fin n)
  arrived : List (Fin n)
  granted : List (Fin n)

/-- All tasks not yet started, lock free. -/
def GateState.init (n : ℕ) : GateState n :=
  ⟨fun _ => .notStarted, none, [], [], []⟩

/-- One scheduler step of the gate automaton. -/
inductive GateStep (n : ℕ) : GateState n → GateState n → Prop where
  | acquireFree (s : GateState n) (i : Fin n) :
      s.phase i = .notStarted → s.holder = none → s.queue = [] →
      GateStep n s { s with phase := Function.update s.phase i .holding,
                            holder := some i,
                            arrived := s.arrived ++ [i],
                            granted := s.granted ++ [i] }
  | acquireWait (s : GateState n) (i : Fin n) :
      s.phase i = .notStarted → ¬(s.holder = none ∧ s.queue = []) →
      GateStep n s { s with phase := Function.update s.phase i .waiting,
                            queue := s.queue ++ [i],
                            arrived := s.arrived ++ [i] }
  | wireStart (s : GateState n) (i : Fin n) :
      s.phase i = .holding →
      GateStep n s { s with phase := Function.update s.phase i .onWire }
  | wireEnd (s : GateState n) (i : Fin n) :
      s.phase i = .onWire →
      GateStep n s { s with phase := Function.update s.phase i .wireDone }
  | releaseGrant (s : GateState n) (i j : Fin n) (rest : List (Fin n)) :
      s.phase i = .wireDone → s.queue = j :: rest →
      GateStep n s { s with phase := Function.update (Function.update s.phase i .finished) j .holding,
                            holder := some j,
                            queue := rest,
                            granted := s.granted ++ [j] }
  | releaseIdle (s : GateState n) (i : Fin n) :
      s.phase i = .wireDone → s.queue = [] →
      GateStep n s { s with phase := Function.update s.phase i .finished,
                            holder := none }

/-- States reachable from the initial gate state. -/
inductive GateReachable (n : ℕ) : GateState n → Prop where
  | init : GateReachable n (GateState.init n)
  | step {s t : GateState n} : GateReachable n s → GateStep n s t → GateReachable n t

/-- Task `i` currently owns the lock (is between acquire and release). -/
def HoldsLock {n : ℕ} (s : GateState n) (i : Fin n) : Prop :=
  s.phase i = .holding ∨ s.phase i = .onWire ∨ s.phase i = .wireDone

/-- Inductive invariant of the gate automaton: the lock owner is exactly the
recorded holder, queued tasks are waiting and queued once, and the grant
order extends to the arrival order. -/
def GateInv {n : ℕ} (s : GateState n) : Prop :=
  (∀ i, HoldsLock s i ↔ s.holder = some i)
  ∧ (∀ i ∈ s.queue, s.phase i = .waiting)
  ∧ s.queue.Nodup
  ∧ s.arrived = s.granted ++ s.queue

/-- A concrete gate state with two tasks where task 0 has acquired the lock
and is on the wire: reached from the initial state by an immediate acquire
followed by starting the wire operation. -/
def gateDemoState : GateState 2 :=
  { phase := Function.update (Function.update (GateState.init 2).phase 0 .holding) 0 .onWire,
    holder := some 0,
    queue := [],
    arrived := [0],
    granted := [0] }

/-! ## Theorems -/

theorem gateInv_init (n : ℕ) : GateInv (GateState.init n) := by
  refine ⟨?_, ?_, ?_, ?_⟩
  · intro i
    simp [HoldsLock, GateState.init]
  · intro i hi
    simp [GateState.init] at hi
  · simp [GateState.init]
  · simp [GateState.init]

theorem gateInv_step {n : ℕ} {s t : GateState n} (hInv : GateInv s) (h : GateStep n s t) :
    GateInv t := by
  obtain ⟨hLock, hQueue, hNodup, hGhost⟩ := hInv
  cases h with
  | acquireFree i h1 h2 h3 =>
    refine ⟨?_, ?_, ?_, ?_⟩
    · intro k
      by_cases hk : k = i
      · subst hk
        simp [HoldsLock, Function.update_same]
      · have hnk : ¬ HoldsLock s k := by
          intro hH
          have hc := (hLock k).mp hH
          rw [h2] at hc
          exact Option.noConfusion hc
        constructor
        · intro hH
          exfalso
          apply hnk
          simpa [HoldsLock, Function.update_noteq hk] using hH
        · intro hEq
          exact absurd (Option.some_inj.mp hEq).symm hk
    · intro k hk
      simp only [h3] at hk
      simp at hk
    · exact hNodup
    · have ha : s.arrived = s.granted := by
        rw [hGhost, h3, List.append_nil]
      show s.arrived ++ [i] = (s.granted ++ [i]) ++ s.queue
      rw [h3, List.append_nil, ha]
  | acquireWait i h1 h2 =>
    refine ⟨?_, ?_, ?_, ?_⟩
    · intro k
      by_cases hk : k = i
      · subst hk
        have hni : ¬ s.holder = some k := by
          intro hc
          rcases (hLock k).mpr hc with hp | hp | hp <;> rw [h1] at hp <;> simp at hp
        simp [HoldsLock, Function.update_same, hni]
      · have := hLock k
        simpa [HoldsLock, Function.update_noteq hk] using this
    · intro k hk
      simp only [List.mem_append, List.mem_singleton] at hk
      show Function.update s.phase i .waiting k = .waiting
      rcases hk with hk | hk
      · have hw := hQueue k hk
        have hki : k ≠ i := by
          intro hc
          rw [hc, h1] at hw
          simp at hw
        rw [Function.update_noteq hki]
        exact hw
      · subst hk
        exact Function.update_same _ _ _
    · have hnotin : i ∉ s.queue := by
        intro hc
        have := hQueue i hc
        rw [h1] at this
        simp at this
      show (s.queue ++ [i]).Nodup
      simp [List.nodup_append, hNodup, hnotin]
    · show s.arrived ++ [i] = s.granted ++ (s.queue ++ [i])
      rw [hGhost, List.append_assoc]
  | wireStart i h1 =>
    refine ⟨?_, ?_, ?_, ?_⟩
    · intro k
      by_cases hk : k = i
      · subst hk
        have hh : s.holder = some k := (hLock k).mp (Or.inl h1)
        simp [HoldsLock, Function.update_same, hh]
      · have := hLock k
        simpa [HoldsLock, Function.update_noteq hk] using this
    · intro k hk
      have hw := hQueue k hk
      have hki : k ≠ i := by
        intro hc
        rw [hc, h1] at hw
        simp at hw
      show Function.update s.phase i .onWire k = .waiting
      rw [Function.update_noteq hki]
      exact hw
    · exact hNodup
    · exact hGhost
  | wireEnd i h1 =>
    refine ⟨?_, ?_, ?_, ?_⟩
    · intro k
      by_cases hk : k = i
      · subst hk
        have hh : s.holder = some k := (hLock k).mp (Or.inr (Or.inl h1))
        simp [HoldsLock, Function.update_same, hh]
      · have := hLock k
        simpa [HoldsLock, Function.update_noteq hk] using this
    · intro k hk
      have hw := hQueue k hk
      have hki : k ≠ i := by
        intro hc
        rw [hc, h1] at hw
        simp at hw
      show Function.update s.phase i .wireDone k = .waiting
      rw [Function.update_noteq hki]
      exact hw
    · exact hNodup
    · exact hGhost
  | releaseGrant i j rest h1 h2 =>
    have hjq : j ∈ s.queue := by rw [h2]; exact List.mem_cons_self j rest
    have hjw : s.phase j = .waiting := hQueue j hjq
    have hji : j ≠ i := by
      intro hc
      rw [hc, h1] at hjw
      simp at hjw
    have hhold : s.holder = some i := (hLock i).mp (Or.inr (Or.inr h1))
    have hrestlem := List.nodup_cons.mp (h2 ▸ hNodup)
    refine ⟨?_, ?_, ?_, ?_⟩
    · intro k
      by_cases hkj : k = j
      · subst hkj
        simp [HoldsLock, Function.update_same]
      · by_cases hki : k = i
        · subst hki
          have hp : Function.update (Function.update s.phase k .finished) j .holding k
              = TaskPhase.finished := by
            rw [Function.update_noteq hkj]
            exact Function.update_same _ _ _
          constructor
          · intro hH
            rcases hH with hq | hq | hq <;> simp [hp] at hq
          · intro hEq
            exact absurd (Option.some_inj.mp hEq) hji
        · have hnk : ¬ HoldsLock s k := by
            intro hH
            have hc := (hLock k).mp hH
            rw [hhold] at hc
            exact hki (Option.some_inj.mp hc).symm
          have hp : Function.update (Function.update s.phase i .finished) j .holding k
              = s.phase k := by
            rw [Function.update_noteq hkj, Function.update_noteq hki]
          constructor
          · intro hH
            exfalso
            apply hnk
            simpa [HoldsLock, hp] using hH
          · intro hEq
            exact absurd (Option.some_inj.mp hEq) (fun hc => hkj hc.symm)
    · intro k hk
      have hkq : k ∈ s.queue := by rw [h2]; exact List.mem_cons_of_mem j hk
      have hw := hQueue k hkq
      have hki : k ≠ i := by
        intro hc
        rw [hc, h1] at hw
        simp at hw
      have hkj : k ≠ j := fun hc => hrestlem.1 (hc ▸ hk)
      show Function.update (Function.update s.phase i .finished) j .holding k = .waiting
      rw [Function.update_noteq hkj, Function.update_noteq hki]
      exact hw
    · exact hrestlem.2
    · show s.arrived = (s.granted ++ [j]) ++ rest
      rw [hGhost, h2, List.append_assoc]
      rfl
  | releaseIdle i h1 h2 =>
    have hhold : s.holder = some i := (hLock i).mp (Or.inr (Or.inr h1))
    refine ⟨?_, ?_, ?_, ?_⟩
    · intro k
      by_cases hk : k = i
      · subst hk
        simp [HoldsLock, Function.update_same]
      · have hnk : ¬ HoldsLock s k := by
          intro hH
          have hc := (hLock k).mp hH
          rw [hhold] at hc
          exact hk (Option.some_inj.mp hc).symm
        constructor
        · intro hH
          exfalso
          apply hnk
          simpa [HoldsLock, Function.update_noteq hk] using hH
        · intro hEq
          exact Option.noConfusion hEq
    · intro k hk
      simp only [h2] at hk
      simp at hk
    · exact hNodup
    · exact hGhost

theorem gateInv_reachable {n : ℕ} {s : GateState n} (h : GateReachable n s) : GateInv s := by
  induction h with
  | init => exact gateInv_init n
  | step _ hstep ih => exact gateInv_step ih hstep

theorem pyInt_intCast (z : ℤ) : pyInt ((z : ℤ) : ℚ) = z := by
  unfold pyInt
  split <;> simp

/-- C1: for every controller state with nonnegative excess and override,
`power_target` is the override under `REPLACE` (even when it is 0), the max
of override and excess under `MINIMUM`, and the override if nonzero else the
excess under `OVERRIDE`.  `power_target` is a pure function of the control
state, so reading it modifies nothing. -/
theorem C1_power_target_arbitration (s : ACThor)
    (_he : 0 ≤ s.power_excess) (_ho : 0 ≤ s.power_override) :
    (s.override_mode = .replace → s.power_target = s.power_override)
    ∧ (s.override_mode = .minimum →
        s.power_target = max s.power_override s.power_excess)
    ∧ (s.override_mode = .override →
        s.power_target
          = if s.power_override = 0 then s.power_excess else s.power_override) := by
  refine ⟨?_, ?_, ?_⟩ <;> intro hm <;> simp [ACThor.power_target, hm, pyOrInt]

/-- Witness for C1 at the concrete state excess 800, override 500, mode
`MINIMUM`. -/
theorem C1_power_target_arbitration_witness :
    ((ACThor.mk 800 500 .minimum).override_mode = .replace →
        (ACThor.mk 800 500 .minimum).power_target
          = (ACThor.mk 800 500 .minimum).power_override)
    ∧ ((ACThor.mk 800 500 .minimum).override_mode = .minimum →
        (ACThor.mk 800 500 .minimum).power_target
          = max (ACThor.mk 800 500 .minimum).power_override
              (ACThor.mk 800 500 .minimum).power_excess)
    ∧ ((ACThor.mk 800 500 .minimum).override_mode = .override →
        (ACThor.mk 800 500 .minimum).power_target
          = if (ACThor.mk 800 500 .minimum).power_override = 0 then
              (ACThor.mk 800 500 .minimum).power_excess
            else (ACThor.mk 800 500 .minimum).power_override) :=
  C1_power_target_arbitration (ACThor.mk 800 500 .minimum) (by decide) (by decide)

/-- C2 counterexample: from the state excess 0, override 0, mode `OVERRIDE`,
`set_power_excess(100)` yields `power_target = 100` but writes 180 — namely
`int(1.8 * 100)` — to the power register, and the `after_write_power` event
carries 100, not the 180 that was written.  The claim says the register
receives exactly `power_target` and the event carries the written wattage. -/
theorem C2_setpoint_write_counterexample :
    (ACThor.set_power_excess 100 ⟨0, 0, .override⟩ (.ok ())).wire
        = [.writeRegister 1000 180]
    ∧ (ACThor.set_power_excess 100 ⟨0, 0, .override⟩ (.ok ())).state.power_target = 100
    ∧ (ACThor.set_power_excess 100 ⟨0, 0, .override⟩ (.ok ())).events
        = [⟨"after_write_power", [100]⟩]
    ∧ (180 : ℤ) ≠ 100 := by
  refine ⟨?_, by decide, by decide, by decide⟩
  norm_num [ACThor.set_power_excess, ACThor.force_update_power, ACThor.power_write,
    SingleRegister.write, SingleRegister.encode, ACThorRegistersMixin.power,
    ReadWriteMixin.propertySet, ReadWriteMixin.write_handle_error,
    ACThor.power_target, pyOrInt, pyInt]

/-- C2 (amended): `set_power_excess(w)` stores `w` as `power_excess`,
immediately issues a write of `int(1.8 * power_target)` — not `power_target`
itself — to the power register (without waiting for the next poll cycle), and
emits `after_write_power` carrying the unscaled `power_target`, not the value
written to the register. -/
theorem C2_set_power_excess_behavior (watts : ℤ) (s : ACThor) :
    ACThor.set_power_excess watts s (.ok ())
      = { state := { s with power_excess := watts },
          wire := [.writeRegister 1000
            (pyInt ((9/5 : ℚ) * ((({ s with power_excess := watts } : ACThor).power_target : ℤ) : ℚ)))],
          events := [⟨"after_write_power",
            [({ s with power_excess := watts } : ACThor).power_target]⟩],
          logs := [],
          result := .ok () } := by
  unfold ACThor.set_power_excess ACThor.force_update_power ACThor.power_write
  simp [SingleRegister.write, SingleRegister.encode, ACThorRegistersMixin.power,
    ReadWriteMixin.propertySet, ReadWriteMixin.write_handle_error, pyInt_intCast]

/-- C3 counterexample: with the default loop interval of 5 seconds the code
writes `int(1.5 * 5) = 7` to the power-timeout register, while the claimed
formula `max(round(1.5 * slow_interval), 10)` with
`slow_interval = max(60, fast_interval)` gives 90. -/
theorem C3_power_timeout_counterexample :
    ACThor.on_connected defaultLoopInterval = [.writeRegister 1004 7]
    ∧ specClaimedPowerTimeout (specSlowIntervalDefault defaultLoopInterval) = 90
    ∧ (7 : ℤ) ≠ 90 := by
  refine ⟨?_, ?_, by decide⟩
  · norm_num [ACThor.on_connected, SingleRegister.write, SingleRegister.encode,
      ACThorRegistersMixin.power_timeout, defaultLoopInterval, pyInt]
  · norm_num [specClaimedPowerTimeout, specSlowIntervalDefault, defaultLoopInterval,
      pyRound]

/-- C3 (amended): on the first entry of the control loop to the running state,
and again on every `"connected"` dispatch, the controller writes
`int(1.5 * loop_interval)` seconds to the power-timeout register, where
`loop_interval` is the controller's single polling interval (default 5); there
is no separate slow interval, no rounding, and no lower bound of 10. -/
theorem C3_power_timeout_rearm (interval : ℚ) :
    ACThor.update_loop_init interval
      = [.writeRegister 1004 (pyInt ((3/2 : ℚ) * interval))]
    ∧ ACThor.connected_listener_wire interval
      = [.writeRegister 1004 (pyInt ((3/2 : ℚ) * interval))]
    ∧ ACThor.update_loop_init defaultLoopInterval = [.writeRegister 1004 7] := by
  refine ⟨rfl, rfl, ?_⟩
  norm_num [ACThor.update_loop_init, ACThor.on_connected, SingleRegister.write,
    SingleRegister.encode, ACThorRegistersMixin.power_timeout, defaultLoopInterval, pyInt]

/-- C4 counterexample: `set_power_excess(100)` with a failing underlying
register write returns normally — the failure does not propagate to the
caller, contrary to the claim that explicit setpoint calls propagate write
failures synchronously. -/
theorem C4_propagation_counterexample :
    (ACThor.set_power_excess 100 ⟨0, 0, .override⟩
        (.error (.transportError "socket failure"))).result = .ok () := by
  rfl

/-- C4 (amended): both the explicit setpoint calls (`set_power_excess`,
`set_power_override`) and the periodic cycle perform the power-register write
through the same fire-and-forget property assignment: a failing write never
propagates to any caller — the explicit calls return normally — and is caught
and logged by the background task; a failing periodic cycle is likewise
caught and logged and the loop continues. -/
theorem C4_write_failure_isolation :
    (∀ (watts : ℤ) (s : ACThor) (e : PyError),
        (ACThor.set_power_excess watts s (.error e)).result = .ok ()
        ∧ (ACThor.set_power_excess watts s (.error e)).logs = ["failed to write"])
    ∧ (∀ (watts : PowerArg) (dev : ℕ → ℤ) (s : ACThor) (e : PyError),
        (ACThor.set_power_override watts none dev s (.error e)).result = .ok ()
        ∧ (ACThor.set_power_override watts none dev s (.error e)).logs
            = ["failed to write"])
    ∧ (∀ (s : ACThor) (e : PyError),
        (ACThor.write_update s (.error e)).2 = ["failed to write"]
        ∧ (ReadWriteMixin.propertySet (.error e)).1 = .ok ())
    ∧ (∀ e : PyError,
        ACThor.update_loop_body (.error e) = (["error while updating"], [], .ok ())) := by
  refine ⟨fun watts s e => ⟨rfl, rfl⟩, ?_, fun s e => ⟨rfl, rfl⟩, fun e => rfl⟩
  intro watts dev s e
  cases watts with
  | bool b => cases b <;> exact ⟨rfl, rfl⟩
  | int n => exact ⟨rfl, rfl⟩

/-- C5 counterexample: the temperature register descriptor (address 1001,
factor 10) encodes the value 0.19 as `int(0.19 * 10) = 1`, while the claimed
`round(0.19 * 10)` is 2. -/
theorem C5_encode_single_counterexample :
    SingleRegister.encode ⟨1001, some 10⟩ (19/100) = 1
    ∧ specEncodeSingle (19/100) (some 10) = 2
    ∧ (1 : ℤ) ≠ 2 := by
  refine ⟨?_, ?_, by decide⟩
  · norm_num [SingleRegister.encode, pyInt]
  · norm_num [specEncodeSingle, pyRound]

/-- C5 (amended): for every value `v` and present non-zero factor `f`, the
single-register write path stores `int(v * f)` — truncation toward zero, not
`round` — and stores `int(v)` when no factor is present. -/
theorem C5_encode_single_truncates (v f : ℚ) (hf : f ≠ 0) (addr : ℕ) :
    SingleRegister.init addr (some f) = .ok ⟨addr, some f⟩
    ∧ SingleRegister.encode ⟨addr, some f⟩ v = pyInt (v * f)
    ∧ SingleRegister.encode ⟨addr, none⟩ v = pyInt v := by
  refine ⟨?_, rfl, rfl⟩
  simp [SingleRegister.init, hf]

/-- Witness for C5 at value 0.19, factor 10, address 1001. -/
theorem C5_encode_single_truncates_witness :
    (10 : ℚ) ≠ 0
    ∧ (SingleRegister.init 1001 (some 10) = .ok ⟨1001, some 10⟩
      ∧ SingleRegister.encode ⟨1001, some 10⟩ (19/100) = pyInt ((19/100) * 10)
      ∧ SingleRegister.encode ⟨1001, none⟩ (19/100) = pyInt (19/100)) :=
  ⟨by norm_num, C5_encode_single_truncates (19/100) 10 (by norm_num) 1001⟩

/-- C6 counterexample: `MultiRegister(1030, 7, factor=0)` constructs without
any error — `MultiRegister.__init__` performs no factor check at all, so the
claim that multi-register descriptors reject a zero factor at construction
time is false. -/
theorem C6_multi_zero_factor_counterexample :
    MultiRegister.init 1030 7 (some 0) = ⟨1030, 7, some 0⟩ := rfl

/-- C6 (amended): only single-register descriptors reject a present factor
equal to 0 at construction (raising `ValueError`, the code's rendering of the
spec's ConfigurationError); single-register construction with an absent or
non-zero factor succeeds, and multi-register construction never checks the
factor and always succeeds — including factor 0. -/
theorem C6_factor_zero_construction :
    (∀ addr : ℕ,
        SingleRegister.init addr (some 0) = .error (.valueError "factor must not be 0"))
    ∧ (∀ (addr : ℕ) (f : ℚ), f ≠ 0 → SingleRegister.init addr (some f) = .ok ⟨addr, some f⟩)
    ∧ (∀ addr : ℕ, SingleRegister.init addr none = .ok ⟨addr, none⟩)
    ∧ (∀ (addr len : ℕ) (factor : Option ℚ),
        MultiRegister.init addr len factor = ⟨addr, len, factor⟩) := by
  refine ⟨fun addr => rfl, ?_, fun addr => rfl, fun addr len factor => rfl⟩
  intro addr f hf
  simp [SingleRegister.init, hf]

/-- Witness for C6 at factor 10, address 1001. -/
theorem C6_factor_zero_construction_witness :
    (10 : ℚ) ≠ 0
    ∧ SingleRegister.init 1001 (some 10) = .ok ⟨1001, some 10⟩ :=
  ⟨by norm_num, (C6_factor_zero_construction.2.1 1001 10 (by norm_num))⟩

/-- C7: a multi-register write with a value sequence whose length differs
from the descriptor's register count raises `ValueError` (the code's
LengthMismatch) before issuing any transport operation, and a sequence of
matching length issues exactly one `write_registers` transport call. -/
theorem C7_multi_write_length_check (r : MultiRegister) (values : List ℚ) :
    (values.length ≠ r.length →
        MultiRegister.write r values = .error (.valueError "can only write matching length"))
    ∧ (values.length = r.length →
        MultiRegister.write r values = .ok [.writeRegisters r.addr (r.encode values)]) := by
  have hlen : (r.encode values).length = values.length := by
    unfold MultiRegister.encode
    cases r.factor <;> simp
  constructor
  · intro hne
    unfold MultiRegister.write
    simp [hlen, hne]
  · intro heq
    unfold MultiRegister.write
    simp [hlen, heq]

/-- Witness for C7: the 7-register temperature batch descriptor rejects a
2-element write, and the 3-register time-of-day descriptor accepts a
3-element write with one transport call. -/
theorem C7_multi_write_length_check_witness :
    MultiRegister.write ⟨1030, 7, some 10⟩ [1, 2]
      = .error (.valueError "can only write matching length")
    ∧ MultiRegister.write ⟨1009, 3, none⟩ [1, 2, 3]
      = .ok [.writeRegisters 1009 (MultiRegister.encode ⟨1009, 3, none⟩ [1, 2, 3])] :=
  ⟨(C7_multi_write_length_check ⟨1030, 7, some 10⟩ [1, 2]).1 (by decide),
   (C7_multi_write_length_check ⟨1009, 3, none⟩ [1, 2, 3]).2 (by decide)⟩

/-- C8: when one subscribed listener raises, its exception is caught and
logged by the per-listener wrapper, every other listener for the event still
runs with its own outcome, and nothing propagates to the dispatcher: the
dispatch task finishes normally. -/
theorem C8_listener_exception_isolation (pre post : List Listener) (bad : Listener)
    (arg : ℤ) (e : PyError) (hBad : bad arg = .error e) :
    dispatch_event (pre ++ bad :: post) arg
      = dispatch_event pre arg
        ++ (Except.ok (), ["listener raised error while handling event"])
          :: dispatch_event post arg
    ∧ (∀ p ∈ dispatch_event (pre ++ bad :: post) arg, p.1 = Except.ok ())
    ∧ dispatch_event_taskResult (pre ++ bad :: post) arg = .ok () := by
  have hwrap : ∀ l : Listener, (dispatch_event_listener l arg).1 = Except.ok () := by
    intro l
    unfold dispatch_event_listener
    cases l arg with
    | ok u => cases u; rfl
    | error e2 => rfl
  have hmem : ∀ p ∈ dispatch_event (pre ++ bad :: post) arg, p.1 = Except.ok () := by
    intro p hp
    simp only [dispatch_event, List.mem_map] at hp
    obtain ⟨l, _, rfl⟩ := hp
    exact hwrap l
  refine ⟨?_, hmem, ?_⟩
  · unfold dispatch_event
    rw [List.map_append, List.map_cons]
    congr 1
    unfold dispatch_event_listener
    rw [hBad]
  · unfold dispatch_event_taskResult gatherResult
    have hfil : ((dispatch_event (pre ++ bad :: post) arg).map Prod.fst).filter
        (fun r => !r.toBool) = [] := by
      rw [List.filter_eq_nil_iff]
      intro a ha
      obtain ⟨p, hp, rfl⟩ := List.mem_map.mp ha
      rw [hmem p hp]
      simp [Except.toBool]
    rw [hfil]

/-- Witness for C8: one well-behaved listener on each side of a raising
listener. -/
theorem C8_listener_exception_isolation_witness :
    dispatch_event ([fun _ => .ok ()] ++ (fun _ => .error (.valueError "boom"))
        :: [fun _ => .ok ()]) 0
      = dispatch_event [fun _ => .ok ()] 0
        ++ (Except.ok (), ["listener raised error while handling event"])
          :: dispatch_event [fun _ => .ok ()] 0
    ∧ (∀ p ∈ dispatch_event ([fun _ => .ok ()] ++ (fun _ => .error (.valueError "boom"))
        :: [fun _ => .ok ()]) 0, p.1 = Except.ok ())
    ∧ dispatch_event_taskResult ([fun _ => .ok ()] ++ (fun _ => .error (.valueError "boom"))
        :: [fun _ => .ok ()]) 0 = .ok () :=
  C8_listener_exception_isolation [fun _ => .ok ()] [fun _ => .ok ()]
    (fun _ => .error (.valueError "boom")) 0 (.valueError "boom") rfl

/-- C9: in every reachable state of the transport's serialization gate, at
most one register operation is on the wire (strict mutual exclusion), and the
order in which the gate has granted the lock, followed by the tasks still
queued, is exactly the order in which the operations arrived — queued
requests are served in arrival order. -/
theorem C9_transport_mutual_exclusion_fifo {n : ℕ} {s : GateState n}
    (h : GateReachable n s) :
    (∀ i j : Fin n, s.phase i = .onWire → s.phase j = .onWire → i = j)
    ∧ s.arrived = s.granted ++ s.queue := by
  obtain ⟨hLock, _, _, hGhost⟩ := gateInv_reachable h
  refine ⟨?_, hGhost⟩
  intro i j hi hj
  have h1 := (hLock i).mp (Or.inr (Or.inl hi))
  have h2 := (hLock j).mp (Or.inr (Or.inl hj))
  exact Option.some_inj.mp (h1.symm.trans h2)

/-- Witness for C9 at a concrete reachable two-task state with task 0 on the
wire. -/
theorem C9_transport_mutual_exclusion_fifo_witness :
    (∀ i j : Fin 2, gateDemoState.phase i = .onWire → gateDemoState.phase j = .onWire → i = j)
    ∧ gateDemoState.arrived = gateDemoState.granted ++ gateDemoState.queue := by
  exact C9_transport_mutual_exclusion_fifo
    (GateReachable.step
      (GateReachable.step GateReachable.init
        (GateStep.acquireFree (GateState.init 2) 0 rfl rfl rfl))
      (GateStep.wireStart _ 0 rfl))

/-- C10: calling `set_power_override` with an integer watts value and a mode
argument that is neither an `OverrideMode` member nor one of the member
values "override", "replace", "minimum" raises `ValueError`, leaves
`power_override` and `override_mode` (the whole control state) unchanged, and
issues no transport operation at all — the watts value is discarded. -/
theorem C10_invalid_mode_rejected :
    (∀ str : String, str ≠ "override" → str ≠ "replace" → str ≠ "minimum" →
        OverrideMode.ofValue (.str str) = .error (.valueError "not a valid OverrideMode"))
    ∧ (∀ (n : ℤ) (m : ModeArg) (dev : ℕ → ℤ) (s : ACThor) (w : Except PyError Unit)
        (e : PyError), OverrideMode.ofValue m = .error e →
          ACThor.set_power_override (.int n) (some m) dev s w
            = ⟨s, [], [], [], .error e⟩) := by
  constructor
  · intro str h1 h2 h3
    simp [OverrideMode.ofValue, h1, h2, h3]
  · intro n m dev s w e hm
    unfold ACThor.set_power_override
    simp [hm]

/-- Witness for C10 with watts 250 and the invalid mode string "bogus". -/
theorem C10_invalid_mode_rejected_witness :
    OverrideMode.ofValue (.str "bogus") = .error (.valueError "not a valid OverrideMode")
    ∧ ACThor.set_power_override (.int 250) (some (.str "bogus")) (fun _ => 0)
        ⟨3, 4, .minimum⟩ (.ok ())
      = ⟨⟨3, 4, .minimum⟩, [], [], [], .error (.valueError "not a valid OverrideMode")⟩ :=
  ⟨C10_invalid_mode_rejected.1 "bogus" (by decide) (by decide) (by decide),
   C10_invalid_mode_rejected.2 250 (.str "bogus") (fun _ => 0) ⟨3, 4, .minimum⟩ (.ok ())
     (.valueError "not a valid OverrideMode")
     (C10_invalid_mode_rejected.1 "bogus" (by decide) (by decide) (by decide))⟩

end Acthor
